import Mathlib

/-!
Shallow embedding of the PureMVC TypeScript multicore framework
(EliteScientist/puremvc-typescript-multicore-framework).

Each definition is translated from the repository's source: the compiled
bundle (`src/unnamed/part_000`, the library as shipped) together with the
TypeScript sources `View.ts` (`part_002`), `Controller.ts` (`part_001`),
`Facade.ts` (`part_004`), `Model.ts`, `SimpleCommand.ts` (`part_003`) and
`ICommand.ts` (which also carries `MacroCommand`).

Modelling conventions:
* A JavaScript `Map` is an insertion-ordered association list
  (`mapGet` / `mapSet` / `mapDelete` / `mapHas` mirror `get` / `set` /
  `delete` / `has`; `set` on an existing key updates the slot in place).
* Object identity (`===` on `notifyContext`) is a `Nat` identity tag.
* An `async` body is a state transformer that also yields a trace of
  events; `await`-sequencing is sequential composition of full effects,
  which is the semantics of the bundle's `for` loops with `await`.
* Observer callbacks and command bodies are defunctionalized into small
  step languages (`HStep`, `CStep`): exactly the operations the claims
  exercise (emitting an observable event, registering/removing observers,
  throwing), so that a handler's own mutation of the registries during a
  dispatch is expressible.
* Mediator/proxy lifecycle hooks (`onRegister`, `onRemove`) are trace
  events where a claim observes them; the base-class hooks are no-ops.
-/

/-- Insertion-ordered association-list reading of `Map.prototype.get`. -/
def mapGet {κ α : Type} [DecidableEq κ] : List (κ × α) → κ → Option α
  | [], _ => none
  | (k', v') :: rest, k => if k' = k then some v' else mapGet rest k

/-- `Map.prototype.set`: update an existing slot in place, else append. -/
def mapSet {κ α : Type} [DecidableEq κ] : List (κ × α) → κ → α → List (κ × α)
  | [], k, v => [(k, v)]
  | (k', v') :: rest, k, v =>
    if k' = k then (k, v) :: rest else (k', v') :: mapSet rest k v

/-- `Map.prototype.delete`: drop the slot for the key, if present. -/
def mapDelete {κ α : Type} [DecidableEq κ] : List (κ × α) → κ → List (κ × α)
  | [], _ => []
  | (k', v') :: rest, k =>
    if k' = k then rest else (k', v') :: mapDelete rest k

/-- `Map.prototype.has`. -/
def mapHas {κ α : Type} [DecidableEq κ] (m : List (κ × α)) (k : κ) : Bool :=
  (mapGet m k).isSome

/-- `Notification`: named message with optional body and type
(`Notification` class, bundle lines 27-114). -/
structure Notification where
  name : String
  body : Option String := none
  type : Option String := none
  deriving DecidableEq, Repr

/-- `Notification.getName()`. -/
def Notification.getName (n : Notification) : String := n.name

/-- Defunctionalized body of an observer callback (a mediator's
`handleNotification` override): each step either records an observable
event or mutates the observer registry of the owning `View` — the
mutations a handler can inflict on the bus that the claims exercise. -/
inductive HStep where
  /-- Record an application-visible event with this tag. -/
  | emit (tag : Nat) : HStep
  /-- Call `view.registerObserver(name, new Observer(handler, ctx))`. -/
  | regObserver (name : String) (ctx : Nat) (steps : List HStep) : HStep
  /-- Call `view.removeObserver(name, ctx)`. -/
  | remObserver (name : String) (ctx : Nat) : HStep

/-- The callback an `Observer` wraps: either a defunctionalized handler
body, or the Controller's own `executeCommand` dispatch method (whose
effect is modelled at `Controller.executeCommand`, the entry point every
claim about commands exercises). -/
inductive NotifyMethod where
  | handler (steps : List HStep) : NotifyMethod
  | dispatch : NotifyMethod

/-- `Observer`: wraps a callback and a `notifyContext`; equality for
removal purposes is identity of the context (`compareNotifyContext`,
bundle lines 1124-1126), modelled as the `ctx` tag. -/
structure Observer where
  ctx : Nat
  method : NotifyMethod

/-- `Observer.compareNotifyContext(object)`: reference identity with the
stored context. -/
def Observer.compareNotifyContext (o : Observer) (object : Nat) : Bool :=
  o.ctx = object

/-- A registered mediator as the `View` sees it: name, the interests its
`listNotificationInterests()` returns, its identity, its
`handleNotification` body, and the multiton key bound at registration. -/
structure MediatorRec where
  name : String
  ctx : Nat
  interests : List String
  steps : List HStep
  key : Option String := none

namespace View

/-- Per-core `View` state: `#mediatorMap`, `#observerMap`, `#multitonKey`
(bundle lines 287-324). -/
structure State where
  multitonKey : String
  mediatorMap : List (String × MediatorRec) := []
  observerMap : List (String × List Observer) := []

/-- `View.registerObserver(notificationName, observer)`
(bundle lines 345-351): push onto the existing list, else create a
one-element list. -/
def registerObserver (st : State) (notificationName : String) (observer : Observer) : State :=
  match mapGet st.observerMap notificationName with
  | some observers =>
    { st with observerMap := mapSet st.observerMap notificationName (observers ++ [observer]) }
  | none =>
    { st with observerMap := mapSet st.observerMap notificationName [observer] }

/-- The `while (i--) ... splice` scan of `View.removeObserver`: remove the
last list element whose context is identical to `notifyContext`. -/
def removeLastCtx (observers : List Observer) (notifyContext : Nat) : List Observer :=
  (go observers.reverse).reverse
where
  go : List Observer → List Observer
    | [] => []
    | o :: rest =>
      if o.compareNotifyContext notifyContext then rest else o :: go rest

/-- `View.removeObserver(notificationName, notifyContext)`
(bundle lines 363-383): no-op when the name is absent; otherwise remove
the last matching observer and delete the name when the list drains. -/
def removeObserver (st : State) (notificationName : String) (notifyContext : Nat) : State :=
  match mapGet st.observerMap notificationName with
  | none => st
  | some observers =>
    if (removeLastCtx observers notifyContext).length = 0 then
      { st with observerMap := mapDelete st.observerMap notificationName }
    else
      { st with observerMap :=
          mapSet st.observerMap notificationName (removeLastCtx observers notifyContext) }

/-- Trace events of a dispatch: an observer's callback being invoked
(`observer.notifyObserver(notification)` reaching the callback), and the
application-visible events the callback body emits. -/
inductive VEvent where
  | called (ctx : Nat) : VEvent
  | emitted (ctx : Nat) (tag : Nat) : VEvent
  deriving DecidableEq, Repr

/-- Effect of one handler step on the owning view. -/
def runHStep (ctx : Nat) (st : State) : HStep → State × List VEvent
  | .emit tag => (st, [VEvent.emitted ctx tag])
  | .regObserver name c steps =>
    (registerObserver st name ⟨c, NotifyMethod.handler steps⟩, [])
  | .remObserver name c => (removeObserver st name c, [])

/-- A handler body runs to completion (every internal `await` resolved)
before control returns to the dispatch loop. -/
def runHSteps (ctx : Nat) (st : State) : List HStep → State × List VEvent
  | [] => (st, [])
  | s :: rest =>
    let r1 := runHStep ctx st s
    let r2 := runHSteps ctx r1.1 rest
    (r2.1, r1.2 ++ r2.2)

/-- `await observer.notifyObserver(notification)` for one observer: the
callback is invoked (traced `called`) and its body runs to completion.
The Controller dispatch callback's effect lives at
`Controller.executeCommand`; inside a pure `View` dispatch it only
records its invocation. -/
def notifyOne (st : State) (o : Observer) : State × List VEvent :=
  match o.method with
  | .handler steps =>
    let r := runHSteps o.ctx st steps
    (r.1, VEvent.called o.ctx :: r.2)
  | .dispatch => (st, [VEvent.called o.ctx])

/-- The `for` loop of `notifyObservers`: each invocation awaited before
the next begins. -/
def notifyList (st : State) : List Observer → State × List VEvent
  | [] => (st, [])
  | o :: rest =>
    let r1 := notifyOne st o
    let r2 := notifyList r1.1 rest
    (r2.1, r1.2 ++ r2.2)

/-- `View.notifyObservers(notification)` (bundle lines 394-406): look up
the list for the notification's name; absent means do nothing; otherwise
iterate over a copy (`observersRef.slice(0)`) of the list taken before
the first callback runs, awaiting each observer in order. -/
def notifyObservers (st : State) (notification : Notification) : State × List VEvent :=
  match mapGet st.observerMap notification.getName with
  | none => (st, [])
  | some observersRef => notifyList st observersRef

/-- The `for` loop of `registerMediator` subscribing the one shared
observer under every interest name. -/
def regInterests (st : State) (interests : List String) (o : Observer) : State :=
  match interests with
  | [] => st
  | i :: rest => regInterests (registerObserver st i o) rest o

/-- `View.registerMediator(mediator)` (bundle lines 422-441): no-op if
the name is taken; otherwise bind the key, store by name, and — when the
interest list is non-empty — subscribe ONE shared observer wrapping
`handleNotification` with the mediator as context under every interest.
The base-class `onRegister` hook is a no-op. -/
def registerMediator (st : State) (mediator : MediatorRec) : State :=
  if mapHas st.mediatorMap mediator.name then st
  else
    let bound := { mediator with key := some st.multitonKey }
    let st1 := { st with mediatorMap := mapSet st.mediatorMap mediator.name bound }
    if 0 < mediator.interests.length then
      regInterests st1 mediator.interests ⟨mediator.ctx, NotifyMethod.handler mediator.steps⟩
    else st1

/-- The `while (interests?.length > 0) this.removeObserver(interests.pop(), mediator)`
loop: interests are unsubscribed from the last to the first. -/
def remInterests (st : State) (interests : List String) (ctx : Nat) : State :=
  match interests with
  | [] => st
  | i :: rest => remInterests (removeObserver st i ctx) rest ctx

/-- `View.removeMediator(mediatorName)` (bundle lines 466-481): absent
returns nothing; otherwise unsubscribe the mediator's context from every
interest, drop the registry entry and return the mediator (base-class
`onRemove` hook is a no-op). -/
def removeMediator (st : State) (mediatorName : String) : State × Option MediatorRec :=
  match mapGet st.mediatorMap mediatorName with
  | none => (st, none)
  | some mediator =>
    let st1 := remInterests st mediator.interests.reverse mediator.ctx
    ({ st1 with mediatorMap := mapDelete st1.mediatorMap mediatorName }, some mediator)

/-- `View.hasMediator(mediatorName)`. -/
def hasMediator (st : State) (mediatorName : String) : Bool :=
  mapHas st.mediatorMap mediatorName

/-- `View.retrieveMediator(mediatorName)`. -/
def retrieveMediator (st : State) (mediatorName : String) : Option MediatorRec :=
  mapGet st.mediatorMap mediatorName

end View

/-- Defunctionalized body of a concrete command's `execute` override: a
straight-line async body that emits observable events and may throw
(reject). -/
inductive CStep where
  | emit (tag : Nat) : CStep
  | throwErr (tag : Nat) : CStep
  deriving DecidableEq, Repr

/-- Run a command body: the events emitted before the first throw, and
the rejection (if any) its returned promise settles with. -/
def runCSteps : List CStep → List Nat × Option Nat
  | [] => ([], none)
  | CStep.emit tag :: rest =>
    let r := runCSteps rest
    (tag :: r.1, r.2)
  | CStep.throwErr tag :: _ => ([], some tag)

/-- A sub-command of a `MacroCommand`: a default-constructible `ICommand`
whose `execute` body is `steps`; `id` is its identity in traces. -/
structure SubCmd where
  id : Nat
  steps : List CStep
  deriving DecidableEq, Repr

/-- `new commandClass(); commandInstance.initializeNotifier(key);
commandInstance.execute(notification)` for one sub-command: the trace of
(command id, tag) events and the settlement of its promise. The body does
not inspect the notification (the claims' commands do not). -/
def execSub (_notification : Notification) (c : SubCmd) : List (Nat × Nat) × Option Nat :=
  let r := runCSteps c.steps
  (r.1.map (fun tag => (c.id, tag)), r.2)

/-- `MacroCommand` (`ICommand.ts` lines 44-153 and bundle lines
1361-1449): an ordered sub-command list and the
`sequentialExecution` flag chosen at construction (default `false`). -/
structure MacroCommand where
  sequentialExecution : Bool := false
  subCommands : List SubCmd := []
  deriving DecidableEq, Repr

/-- `MacroCommand.addSubCommand(commandClass)`: FIFO push. -/
def MacroCommand.addSubCommand (m : MacroCommand) (commandClass : SubCmd) : MacroCommand :=
  { m with subCommands := m.subCommands ++ [commandClass] }

/-- The sequential branch of `MacroCommand.execute`: the `for` loop
awaits each sub-command's `execute`; a rejection propagates out of the
enclosing async function at once, so later sub-commands are never
instantiated. -/
def seqRun (notification : Notification) : List SubCmd → List (Nat × Nat) × Option Nat
  | [] => ([], none)
  | c :: rest =>
    match execSub notification c with
    | (events, some err) => (events, some err)
    | (events, none) =>
      let r := seqRun notification rest
      (events ++ r.1, r.2)

/-- `MacroCommand.execute(notification)` (`ICommand.ts` lines 127-152):
parallel mode maps every sub-command into a started execution and
`await Promise.allSettled(...)` — every sub-command settles (its events
all occur, a rejection is captured in the discarded results array) and
the composite's own promise resolves with `undefined`; sequential mode
is the fail-fast `for`/`await` chain. -/
def MacroCommand.execute (m : MacroCommand) (notification : Notification) :
    List (Nat × Nat) × Option Nat :=
  if !m.sequentialExecution then
    ((m.subCommands.map (fun c => (execSub notification c).1)).flatten, none)
  else
    seqRun notification m.subCommands

/-- A command constructor registrable at the `Controller`: a leaf
(`SimpleCommand` subclass) or a composite (`MacroCommand` subclass). -/
inductive CommandCls where
  | leaf (c : SubCmd) : CommandCls
  | composite (m : MacroCommand) : CommandCls
  deriving DecidableEq, Repr

/-- Instantiate and execute a registered command constructor. -/
def CommandCls.exec (cls : CommandCls) (notification : Notification) :
    List (Nat × Nat) × Option Nat :=
  match cls with
  | .leaf c => execSub notification c
  | .composite m => m.execute notification

namespace Controller

/-- Per-core `Controller` state (bundle lines 1152-1191): the
`commandMap`, the core's `View`, the multiton key, and the controller's
own object identity (the `this` it passes as `notifyContext`). -/
structure State where
  ctx : Nat
  multitonKey : String
  commandMap : List (String × CommandCls) := []
  view : View.State

/-- `Controller.registerCommand(notificationName, commandClass)`
(bundle lines 1252-1256): subscribe ONE observer — callback
`this.executeCommand`, context `this` — only when the name has no mapping
yet; always store the constructor (last writer wins). -/
def registerCommand (cs : State) (notificationName : String) (commandClass : CommandCls) :
    State :=
  let v :=
    if !mapHas cs.commandMap notificationName then
      View.registerObserver cs.view notificationName ⟨cs.ctx, NotifyMethod.dispatch⟩
    else cs.view
  { cs with view := v, commandMap := mapSet cs.commandMap notificationName commandClass }

/-- `Controller.executeCommand(notification)` (bundle lines 1221-1233):
no mapping means do nothing; otherwise instantiate the mapped
constructor, bind the key and await its `execute`. -/
def executeCommand (cs : State) (notification : Notification) :
    List (Nat × Nat) × Option Nat :=
  match mapGet cs.commandMap notification.getName with
  | none => ([], none)
  | some commandClass => commandClass.exec notification

/-- `Controller.hasCommand(notificationName)`. -/
def hasCommand (cs : State) (notificationName : String) : Bool :=
  mapHas cs.commandMap notificationName

/-- `Controller.removeCommand(notificationName)` (bundle lines
1279-1285). -/
def removeCommand (cs : State) (notificationName : String) : State :=
  if hasCommand cs notificationName then
    { cs with view := View.removeObserver cs.view notificationName cs.ctx,
              commandMap := mapDelete cs.commandMap notificationName }
  else cs

end Controller

/-- Lifecycle-hook events fired by the `Model` on its proxies. -/
inductive MEvent where
  | onRegister (id : Nat) : MEvent
  | onRemove (id : Nat) : MEvent
  deriving DecidableEq, Repr

/-- A registered proxy as the `Model` sees it: name, identity, data slot
and the multiton key bound at registration. -/
structure ProxyRec where
  name : String
  id : Nat
  data : Option String := none
  key : Option String := none
  deriving DecidableEq, Repr

namespace Model

/-- Per-core `Model` state (`Model.ts` lines 20-58). -/
structure State where
  multitonKey : String
  proxyMap : List (String × ProxyRec) := []
  deriving DecidableEq, Repr

/-- `Model.registerProxy(proxy)` (`Model.ts` lines 79-85):
`initializeNotifier(key)`, store under `getProxyName()` — overwriting any
existing slot without touching the displaced entry — then fire the new
proxy's `onRegister` hook. -/
def registerProxy (ms : State) (proxy : ProxyRec) : State × List MEvent :=
  let bound := { proxy with key := some ms.multitonKey }
  ({ ms with proxyMap := mapSet ms.proxyMap proxy.name bound },
   [MEvent.onRegister proxy.id])

/-- `Model.removeProxy(proxyName)` (`Model.ts` lines 97-108). -/
def removeProxy (ms : State) (proxyName : String) :
    State × List MEvent × Option ProxyRec :=
  match mapGet ms.proxyMap proxyName with
  | some proxy =>
    ({ ms with proxyMap := mapDelete ms.proxyMap proxyName },
     [MEvent.onRemove proxy.id], some proxy)
  | none => (ms, [], none)

/-- `Model.retrieveProxy(proxyName)`. -/
def retrieveProxy (ms : State) (proxyName : String) : Option ProxyRec :=
  mapGet ms.proxyMap proxyName

/-- `Model.hasProxy(proxyName)`. -/
def hasProxy (ms : State) (proxyName : String) : Bool :=
  mapHas ms.proxyMap proxyName

end Model

/-- The value of the `Notifier`'s private `#multitonKey` field as
JavaScript sees it: `undefined` until `initializeNotifier` runs (an
uninitialized class field), `null` only if stored explicitly, or the
bound string key. -/
inductive JKey where
  | undef : JKey
  | null : JKey
  | str (s : String) : JKey
  deriving DecidableEq, Repr

namespace Notifier

/-- `Notifier.MULTITON_MSG` (bundle line 1018). -/
def MULTITON_MSG : String := "multitonKey for this Notifier not yet initialized!"

/-- `Notifier` instance state (bundle lines 951-1019): just the private
`#multitonKey`, which starts out `undefined`. -/
structure State where
  multitonKey : JKey := JKey.undef
  deriving DecidableEq, Repr

/-- `Notifier.initializeNotifier(key)` (bundle lines 973-975). -/
def initializeNotifier (_ns : State) (key : String) : State :=
  { multitonKey := JKey.str key }

/-- The `facade` getter (bundle lines 1007-1011):
`if (this.#multitonKey === null) throw Error(MULTITON_MSG);
return Facade.getInstance(this.#multitonKey);` — the strict equality is
against `null`, and `Facade.getInstance` is keyed by whatever value the
field holds, so the result names the multiton key of the `Facade`
instance returned. -/
def facade (ns : State) : Except String JKey :=
  if ns.multitonKey = JKey.null then Except.error MULTITON_MSG
  else Except.ok ns.multitonKey

end Notifier

/-- A `Facade` instance for the global registries: it holds the key its
`Model`/`View`/`Controller` references resolve through. -/
structure FacadeRec where
  multitonKey : String
  deriving DecidableEq, Repr

/-- The four static `instanceMap`s — the multiton registries of `Model`,
`View`, `Controller` and `Facade`. -/
structure GlobalState where
  models : List (String × Model.State) := []
  views : List (String × View.State) := []
  controllers : List (String × Controller.State) := []
  facades : List (String × FacadeRec) := []

/-- `new Model(key)` under an unused key (`Model.ts` lines 48-58). -/
def newModel (key : String) : Model.State :=
  { multitonKey := key, proxyMap := [] }

/-- `Model.getInstance(key)` (`Model.ts` lines 165-171): construct and
record the instance only when the key is unbound. -/
def modelGetInstanceG (g : GlobalState) (key : String) : GlobalState :=
  if !mapHas g.models key then
    { g with models := mapSet g.models key (newModel key) }
  else g

/-- `new View(key)` under an unused key (bundle lines 317-325). -/
def newView (key : String) : View.State :=
  { multitonKey := key, mediatorMap := [], observerMap := [] }

/-- `View.getInstance(key)` (bundle lines 517-521). -/
def viewGetInstanceG (g : GlobalState) (key : String) : GlobalState :=
  if !mapHas g.views key then
    { g with views := mapSet g.views key (newView key) }
  else g

/-- `Controller.getInstance(key)` (bundle lines 1309-1313); the
constructor's `initializeController` fetches `View.getInstance(key)`, so
a fresh controller may also create the core's view. The controller's
object identity is drawn from a counter outside the modelled state; the
claims never compare controllers across cores, so it is fixed to a tag
derived from the key. -/
def controllerGetInstanceG (g : GlobalState) (key : String) : GlobalState :=
  if !mapHas g.controllers key then
    let g1 := viewGetInstanceG g key
    let v := (mapGet g1.views key).getD (newView key)
    let ctl : Controller.State :=
      { ctx := 0, multitonKey := key, commandMap := [], view := v }
    { g1 with controllers := mapSet g1.controllers key ctl }
  else g

/-- `Facade.removeCore(key)` (`Facade.ts` lines 445-455): unknown key
returns immediately; otherwise remove the `Model`, `View` and
`Controller` instances for the key, then the `Facade` itself. -/
def facadeRemoveCore (g : GlobalState) (key : String) : GlobalState :=
  if !mapHas g.facades key then g
  else
    { models := mapDelete g.models key,
      views := mapDelete g.views key,
      controllers := mapDelete g.controllers key,
      facades := mapDelete g.facades key }

/-- The application-visible events a handler body emits, independent of
the registry state it runs against. -/
def stepsEvents (ctx : Nat) (steps : List HStep) : List View.VEvent :=
  steps.filterMap (fun s =>
    match s with
    | HStep.emit tag => some (View.VEvent.emitted ctx tag)
    | HStep.regObserver _ _ _ => none
    | HStep.remObserver _ _ => none)

/-- The events one observer invocation contributes beyond its `called`
marker. -/
def obsEvents (o : Observer) : List View.VEvent :=
  match o.method with
  | NotifyMethod.handler steps => stepsEvents o.ctx steps
  | NotifyMethod.dispatch => []

/-- The contexts whose callbacks a dispatch trace shows were invoked, in
invocation order. -/
def calledOf (events : List View.VEvent) : List Nat :=
  events.filterMap (fun e =>
    match e with
    | View.VEvent.called c => some c
    | View.VEvent.emitted _ _ => none)

/-- The observer-registry invariant of the spec: every name present in
the observer map carries a non-empty observer sequence. -/
def View.invB (st : View.State) : Bool :=
  st.observerMap.all (fun p => !p.2.isEmpty)

/-- How many observers with the given context identity sit in the list
registered under a name. -/
def View.countCtx (st : View.State) (nm : String) (c : Nat) : Nat :=
  (((mapGet st.observerMap nm).getD []).filter (fun o => o.ctx == c)).length

@[simp] theorem mapGet_set_self {κ α : Type} [DecidableEq κ]
    (m : List (κ × α)) (k : κ) (v : α) : mapGet (mapSet m k v) k = some v := by
  induction m with
  | nil => simp [mapGet, mapSet]
  | cons p rest ih =>
    obtain ⟨k', v'⟩ := p
    by_cases h : k' = k <;> simp [mapGet, mapSet, h, ih]

@[simp] theorem mapGet_set_ne {κ α : Type} [DecidableEq κ]
    (m : List (κ × α)) (k k' : κ) (v : α) (h : k' ≠ k) :
    mapGet (mapSet m k v) k' = mapGet m k' := by
  induction m with
  | nil => simp [mapGet, mapSet, Ne.symm h]
  | cons p rest ih =>
    obtain ⟨k₀, v₀⟩ := p
    by_cases h₀ : k₀ = k
    · subst h₀
      simp [mapGet, mapSet, Ne.symm h]
    · simp only [mapSet, if_neg h₀]
      by_cases h₁ : k₀ = k' <;> simp [mapGet, h₁, ih]

@[simp] theorem mapHas_set_self {κ α : Type} [DecidableEq κ]
    (m : List (κ × α)) (k : κ) (v : α) : mapHas (mapSet m k v) k = true := by
  simp [mapHas]

theorem mapGet_delete_ne {κ α : Type} [DecidableEq κ]
    (m : List (κ × α)) (k k' : κ) (h : k' ≠ k) :
    mapGet (mapDelete m k) k' = mapGet m k' := by
  induction m with
  | nil => simp [mapDelete]
  | cons p rest ih =>
    obtain ⟨k₀, v₀⟩ := p
    by_cases h₀ : k₀ = k
    · subst h₀
      simp [mapGet, mapDelete, Ne.symm h]
    · by_cases h₁ : k₀ = k' <;> simp [mapGet, mapDelete, h₀, h₁, h, ih]

namespace View

theorem runHSteps_events (ctx : Nat) (steps : List HStep) :
    ∀ st : State, (runHSteps ctx st steps).2 = stepsEvents ctx steps := by
  induction steps with
  | nil => intro st; simp [runHSteps, stepsEvents]
  | cons s rest ih =>
    intro st
    cases s <;> simp [runHSteps, runHStep, stepsEvents, List.filterMap_cons, ih]

theorem notifyOne_events (st : State) (o : Observer) :
    (notifyOne st o).2 = VEvent.called o.ctx :: obsEvents o := by
  cases h : o.method <;> simp [notifyOne, obsEvents, h, runHSteps_events]

theorem notifyList_events (l : List Observer) :
    ∀ st : State,
      (notifyList st l).2 = l.flatMap (fun o => VEvent.called o.ctx :: obsEvents o) := by
  induction l with
  | nil => intro st; simp [notifyList]
  | cons o rest ih =>
    intro st
    simp [notifyList, notifyOne_events, ih]

theorem calledOf_append (a b : List VEvent) :
    calledOf (a ++ b) = calledOf a ++ calledOf b := by
  simp [calledOf]

theorem calledOf_called_cons (c : Nat) (es : List VEvent) :
    calledOf (VEvent.called c :: es) = c :: calledOf es := by
  simp [calledOf, List.filterMap_cons]

theorem calledOf_emitted_cons (c tag : Nat) (es : List VEvent) :
    calledOf (VEvent.emitted c tag :: es) = calledOf es := by
  simp [calledOf, List.filterMap_cons]

theorem calledOf_stepsEvents (ctx : Nat) (steps : List HStep) :
    calledOf (stepsEvents ctx steps) = [] := by
  induction steps with
  | nil => rfl
  | cons s rest ih =>
    cases s <;>
      simpa [stepsEvents, List.filterMap_cons, calledOf_emitted_cons] using ih

theorem calledOf_obsEvents (o : Observer) : calledOf (obsEvents o) = [] := by
  cases h : o.method
  · simp [obsEvents, h, calledOf_stepsEvents]
  · simp [obsEvents, h, calledOf]

theorem notifyList_called (l : List Observer) :
    ∀ st : State, calledOf (notifyList st l).2 = l.map (fun o => o.ctx) := by
  induction l with
  | nil => intro st; rfl
  | cons o rest ih =>
    intro st
    simp [notifyList, calledOf_append, notifyOne_events, ih,
      calledOf_called_cons, calledOf_obsEvents]

end View

theorem mem_mapSet {κ α : Type} [DecidableEq κ]
    (m : List (κ × α)) (k : κ) (v : α) (q : κ × α)
    (hq : q ∈ mapSet m k v) : q = (k, v) ∨ q ∈ m := by
  induction m with
  | nil =>
    simp only [mapSet, List.mem_singleton] at hq
    exact Or.inl hq
  | cons p rest ih =>
    obtain ⟨k₀, v₀⟩ := p
    by_cases h₀ : k₀ = k
    · simp only [mapSet, if_pos h₀, List.mem_cons] at hq
      rcases hq with hq | hq
      · exact Or.inl hq
      · exact Or.inr (List.mem_cons_of_mem _ hq)
    · simp only [mapSet, if_neg h₀, List.mem_cons] at hq
      rcases hq with hq | hq
      · exact Or.inr (by simp [hq])
      · rcases ih hq with hq' | hq'
        · exact Or.inl hq'
        · exact Or.inr (List.mem_cons_of_mem _ hq')

theorem mem_mapDelete {κ α : Type} [DecidableEq κ]
    (m : List (κ × α)) (k : κ) (q : κ × α)
    (hq : q ∈ mapDelete m k) : q ∈ m := by
  induction m with
  | nil => simp [mapDelete] at hq
  | cons p rest ih =>
    obtain ⟨k₀, v₀⟩ := p
    by_cases h₀ : k₀ = k
    · simp only [mapDelete, if_pos h₀] at hq
      exact List.mem_cons_of_mem _ hq
    · simp only [mapDelete, if_neg h₀, List.mem_cons] at hq
      rcases hq with hq | hq
      · simp [hq]
      · exact List.mem_cons_of_mem _ (ih hq)

namespace View

theorem invB_iff (st : State) :
    invB st = true ↔ ∀ p ∈ st.observerMap, p.2 ≠ ([] : List Observer) := by
  simp [invB, List.all_eq_true, List.isEmpty_iff]

theorem invB_registerObserver (st : State) (nm : String) (o : Observer)
    (h : invB st = true) : invB (registerObserver st nm o) = true := by
  rw [invB_iff] at h ⊢
  unfold registerObserver
  cases hg : mapGet st.observerMap nm with
  | none =>
    intro p hp
    rcases mem_mapSet _ _ _ _ hp with hp' | hp'
    · subst hp'; simp
    · exact h p hp'
  | some observers =>
    intro p hp
    rcases mem_mapSet _ _ _ _ hp with hp' | hp'
    · subst hp'; simp
    · exact h p hp'

theorem invB_removeObserver (st : State) (nm : String) (c : Nat)
    (h : invB st = true) : invB (removeObserver st nm c) = true := by
  rw [invB_iff] at h
  unfold removeObserver
  split
  · rwa [invB_iff]
  · split
    · rw [invB_iff]
      intro p hp
      exact h p (mem_mapDelete _ _ _ hp)
    · rename_i observers hg hl
      rw [invB_iff]
      intro p hp
      rcases mem_mapSet _ _ _ _ hp with hp' | hp'
      · subst hp'
        simpa [← List.length_eq_zero] using hl
      · exact h p hp'

theorem invB_runHStep (ctx : Nat) (st : State) (s : HStep)
    (h : invB st = true) : invB (runHStep ctx st s).1 = true := by
  cases s with
  | emit tag => exact h
  | regObserver nm c steps => exact invB_registerObserver st nm _ h
  | remObserver nm c => exact invB_removeObserver st nm c h

theorem invB_runHSteps (ctx : Nat) (steps : List HStep) :
    ∀ st : State, invB st = true → invB (runHSteps ctx st steps).1 = true := by
  induction steps with
  | nil => intro st h; exact h
  | cons s rest ih =>
    intro st h
    exact ih _ (invB_runHStep ctx st s h)

theorem invB_notifyOne (st : State) (o : Observer)
    (h : invB st = true) : invB (notifyOne st o).1 = true := by
  cases hm : o.method with
  | handler steps => simpa [notifyOne, hm] using invB_runHSteps o.ctx steps st h
  | dispatch => simpa [notifyOne, hm] using h

theorem invB_notifyList (l : List Observer) :
    ∀ st : State, invB st = true → invB (notifyList st l).1 = true := by
  induction l with
  | nil => intro st h; exact h
  | cons o rest ih =>
    intro st h
    exact ih _ (invB_notifyOne st o h)

theorem invB_notifyObservers (st : State) (n : Notification)
    (h : invB st = true) : invB (notifyObservers st n).1 = true := by
  unfold notifyObservers
  cases hg : mapGet st.observerMap n.getName with
  | none => exact h
  | some observersRef => exact invB_notifyList observersRef st h

theorem invB_regInterests (l : List String) :
    ∀ (st : State) (o : Observer), invB st = true →
      invB (regInterests st l o) = true := by
  induction l with
  | nil => intro st o h; exact h
  | cons i rest ih =>
    intro st o h
    exact ih _ o (invB_registerObserver st i o h)

theorem invB_registerMediator (st : State) (m : MediatorRec)
    (h : invB st = true) : invB (registerMediator st m) = true := by
  unfold registerMediator
  split
  · exact h
  · split
    · exact invB_regInterests m.interests _ _ h
    · exact h

theorem invB_remInterests (l : List String) :
    ∀ (st : State) (c : Nat), invB st = true →
      invB (remInterests st l c) = true := by
  induction l with
  | nil => intro st c h; exact h
  | cons i rest ih =>
    intro st c h
    exact ih _ c (invB_removeObserver st i c h)

theorem invB_removeMediator (st : State) (nm : String)
    (h : invB st = true) : invB (removeMediator st nm).1 = true := by
  unfold removeMediator
  cases hg : mapGet st.mediatorMap nm with
  | none => exact h
  | some m =>
    have h1 : invB (remInterests st m.interests.reverse m.ctx) = true :=
      invB_remInterests m.interests.reverse st m.ctx h
    exact h1

end View

namespace View

theorem registerObserver_mediatorMap (st : State) (nm : String) (o : Observer) :
    (registerObserver st nm o).mediatorMap = st.mediatorMap := by
  unfold registerObserver
  cases mapGet st.observerMap nm <;> rfl

theorem regInterests_mediatorMap (l : List String) :
    ∀ (st : State) (o : Observer),
      (regInterests st l o).mediatorMap = st.mediatorMap := by
  induction l with
  | nil => intro st o; rfl
  | cons i rest ih =>
    intro st o
    rw [regInterests, ih, registerObserver_mediatorMap]

theorem countCtx_mediatorMap_update (st : State)
    (mm : List (String × MediatorRec)) (nm : String) (c : Nat) :
    countCtx { st with mediatorMap := mm } nm c = countCtx st nm c := rfl

theorem countCtx_registerObserver_self (st : State) (nm : String) (o : Observer) :
    countCtx (registerObserver st nm o) nm o.ctx = countCtx st nm o.ctx + 1 := by
  unfold registerObserver countCtx
  cases hg : mapGet st.observerMap nm with
  | none => simp [hg, List.filter]
  | some observers => simp [hg, List.filter_append, List.filter]

theorem countCtx_registerObserver_ne (st : State) (nm nm' : String) (o : Observer)
    (c : Nat) (h : nm' ≠ nm) :
    countCtx (registerObserver st nm o) nm' c = countCtx st nm' c := by
  unfold registerObserver countCtx
  cases hg : mapGet st.observerMap nm <;>
    simp [mapGet_set_ne _ _ _ _ h]

theorem countCtx_regInterests_not_mem (l : List String) :
    ∀ (st : State) (o : Observer) (i : String) (c : Nat), i ∉ l →
      countCtx (regInterests st l o) i c = countCtx st i c := by
  induction l with
  | nil => intro st o i c _; rfl
  | cons j rest ih =>
    intro st o i c hi
    simp only [List.mem_cons, not_or] at hi
    rw [regInterests, ih _ _ _ _ hi.2, countCtx_registerObserver_ne _ _ _ _ _ hi.1]

theorem countCtx_regInterests_mem (l : List String) :
    ∀ (st : State) (o : Observer) (i : String), l.Nodup → i ∈ l →
      countCtx (regInterests st l o) i o.ctx = countCtx st i o.ctx + 1 := by
  induction l with
  | nil => intro st o i _ hi; cases hi
  | cons j rest ih =>
    intro st o i hnd hi
    have hjrest : j ∉ rest := (List.nodup_cons.mp hnd).1
    have hrest : rest.Nodup := (List.nodup_cons.mp hnd).2
    rcases List.mem_cons.mp hi with hij | hirest
    · subst hij
      rw [regInterests, countCtx_regInterests_not_mem rest _ _ _ _ hjrest,
        countCtx_registerObserver_self]
    · have hne : i ≠ j := fun hh => hjrest (hh ▸ hirest)
      rw [regInterests, ih _ _ _ hrest hirest,
        countCtx_registerObserver_ne _ _ _ _ _ hne]

theorem registerMediator_noop (st : State) (m : MediatorRec)
    (h : mapHas st.mediatorMap m.name = true) : registerMediator st m = st := by
  unfold registerMediator
  rw [if_pos h]

theorem registerMediator_mediatorMap (st : State) (m : MediatorRec)
    (h : mapHas st.mediatorMap m.name = false) :
    (registerMediator st m).mediatorMap =
      mapSet st.mediatorMap m.name ({ m with key := some st.multitonKey }) := by
  unfold registerMediator
  rw [if_neg (by simp [h])]
  split
  · rw [regInterests_mediatorMap]
  · rfl

end View

/-- C1 (counterexample): parallel `MacroCommand` over sub-commands `A`
(id 0, rejects with 7) and `B` (id 1, emits 3): `A` fails, `B` still runs
to completion (its event is in the trace), yet the composite's own
completion is a plain successful resolution (`none`) — indistinguishable
from the all-succeeded case, so the claim that the completion surfaces
the sub-command failure is false on this input. -/
theorem puremvc_C1_counterexample :
    (execSub ⟨"N", none, none⟩ ⟨0, [CStep.throwErr 7]⟩).2 = some 7
    ∧ (MacroCommand.execute ⟨false, [⟨0, [CStep.throwErr 7]⟩, ⟨1, [CStep.emit 3]⟩]⟩
        ⟨"N", none, none⟩).2 = none
    ∧ (MacroCommand.execute ⟨false, [⟨0, [CStep.throwErr 7]⟩, ⟨1, [CStep.emit 3]⟩]⟩
        ⟨"N", none, none⟩).1 = [(1, 3)] :=
  ⟨rfl, rfl, rfl⟩

/-- C1 (amended): for every parallel-mode `MacroCommand`, `execute` lets
every sub-command settle — each sub-command's events appear in the
composite trace whether its siblings fail or not — and the composite's
own completion is ALWAYS a successful resolution: the per-sub-command
failures captured by `Promise.allSettled` are discarded, not surfaced. -/
theorem puremvc_C1_settle_all (m : MacroCommand) (n : Notification)
    (h : m.sequentialExecution = false) :
    (MacroCommand.execute m n).2 = none
    ∧ ∀ c ∈ m.subCommands, (execSub n c).1.Sublist (MacroCommand.execute m n).1 := by
  constructor
  · simp [MacroCommand.execute, h]
  · intro c hc
    simp only [MacroCommand.execute, h, Bool.not_false, if_true]
    exact List.sublist_flatten_of_mem (List.mem_map_of_mem _ hc)

/-- Witness for C1 (amended) at the two-sub-command input of the
counterexample. -/
theorem puremvc_C1_witness :
    (MacroCommand.mk false [⟨0, [CStep.throwErr 7]⟩, ⟨1, [CStep.emit 3]⟩]).sequentialExecution
        = false
    ∧ ((MacroCommand.execute ⟨false, [⟨0, [CStep.throwErr 7]⟩, ⟨1, [CStep.emit 3]⟩]⟩
          ⟨"N", none, none⟩).2 = none
        ∧ ∀ c ∈ (MacroCommand.mk false [⟨0, [CStep.throwErr 7]⟩, ⟨1, [CStep.emit 3]⟩]).subCommands,
            (execSub ⟨"N", none, none⟩ c).1.Sublist
              (MacroCommand.execute ⟨false, [⟨0, [CStep.throwErr 7]⟩, ⟨1, [CStep.emit 3]⟩]⟩
                ⟨"N", none, none⟩).1) :=
  ⟨rfl, puremvc_C1_settle_all ⟨false, [⟨0, [CStep.throwErr 7]⟩, ⟨1, [CStep.emit 3]⟩]⟩
    ⟨"N", none, none⟩ rfl⟩

/-- C2: registering `o1` then `o2` under a name with no prior observers
and dispatching a notification of that name invokes `o1` before `o2`,
and every event of `o1`'s (possibly suspending) invocation — its
`called` marker and its complete handler trace — precedes `o2`'s
`called` marker: each invocation is awaited to full completion before
the next begins. -/
theorem puremvc_C2_order (st0 : View.State) (n : Notification) (o1 o2 : Observer)
    (h : mapGet st0.observerMap n.getName = none) :
    (View.notifyObservers
        (View.registerObserver (View.registerObserver st0 n.getName o1) n.getName o2) n).2 =
      (View.VEvent.called o1.ctx :: obsEvents o1)
        ++ (View.VEvent.called o2.ctx :: obsEvents o2) := by
  have e1 : View.registerObserver st0 n.getName o1 =
      { st0 with observerMap := mapSet st0.observerMap n.getName [o1] } := by
    simp [View.registerObserver, h]
  have e2 : View.registerObserver
      ({ st0 with observerMap := mapSet st0.observerMap n.getName [o1] }) n.getName o2 =
      { st0 with observerMap := mapSet (mapSet st0.observerMap n.getName [o1]) n.getName [o1, o2] } := by
    simp [View.registerObserver, mapGet_set_self]
  rw [e1, e2]
  have e3 : mapGet (mapSet (mapSet st0.observerMap n.getName [o1]) n.getName [o1, o2])
      n.getName = some [o1, o2] := mapGet_set_self _ _ _
  simp [View.notifyObservers, e3, View.notifyList_events, View.notifyOne_events]

/-- Witness for C2 on a fresh view: observers 1 (emitting tag 5) and 2
under name "N". -/
theorem puremvc_C2_witness :
    mapGet (View.State.mk "core" [] []).observerMap
        (Notification.mk "N" none none).getName = none
    ∧ (View.notifyObservers
        (View.registerObserver
          (View.registerObserver (View.State.mk "core" [] [])
            (Notification.mk "N" none none).getName
            ⟨1, NotifyMethod.handler [HStep.emit 5]⟩)
          (Notification.mk "N" none none).getName ⟨2, NotifyMethod.handler []⟩)
        (Notification.mk "N" none none)).2 =
      (View.VEvent.called 1 :: obsEvents ⟨1, NotifyMethod.handler [HStep.emit 5]⟩)
        ++ (View.VEvent.called 2 :: obsEvents ⟨2, NotifyMethod.handler []⟩) :=
  ⟨rfl, puremvc_C2_order (View.State.mk "core" [] []) (Notification.mk "N" none none)
    ⟨1, NotifyMethod.handler [HStep.emit 5]⟩ ⟨2, NotifyMethod.handler []⟩ rfl⟩

/-- C3: on a `Notifier` whose `initializeNotifier` has never been called,
the `facade` getter does NOT throw: the uninitialized private field is
`undefined`, the guard tests strict equality with `null`, so the getter
proceeds to `Facade.getInstance(undefined)` and yields a facade keyed by
`undefined` — contradicting the claim (and the getter's own `@throws`
documentation) that unbound access fails distinctly. After
`initializeNotifier`, the same getter yields the facade of the bound
key. -/
theorem puremvc_C3_unbound_access :
    Notifier.facade { multitonKey := JKey.undef } = Except.ok JKey.undef
    ∧ Notifier.facade (Notifier.initializeNotifier { multitonKey := JKey.undef } "core")
        = Except.ok (JKey.str "core") :=
  ⟨rfl, rfl⟩

/-- C4: during one `notifyObservers` dispatch, the observers whose
callbacks get invoked are exactly — and in order — those registered
under the notification's name when dispatch began: the loop iterates a
snapshot, so handler bodies that register or remove observers for the
same name (any `HStep` program) cannot change the in-flight delivery. -/
theorem puremvc_C4_snapshot (st : View.State) (n : Notification) :
    calledOf (View.notifyObservers st n).2 =
      ((mapGet st.observerMap n.getName).getD []).map (fun o => o.ctx) := by
  unfold View.notifyObservers
  cases hg : mapGet st.observerMap n.getName with
  | none => rfl
  | some observersRef => simpa using View.notifyList_called observersRef st

/-- C5: a fresh view satisfies the observer-map invariant — every present
name carries a non-empty observer list — and every `View` operation
(`registerObserver`, `removeObserver`, `registerMediator`,
`removeMediator`, `notifyObservers`, the last with arbitrary
registry-mutating handlers) preserves it; a drained name is deleted. -/
theorem puremvc_C5_invariant (st : View.State) (h : View.invB st = true)
    (k nm : String) (o : Observer) (c : Nat) (m : MediatorRec) (mn : String)
    (n : Notification) :
    View.invB (newView k) = true
    ∧ View.invB (View.registerObserver st nm o) = true
    ∧ View.invB (View.removeObserver st nm c) = true
    ∧ View.invB (View.registerMediator st m) = true
    ∧ View.invB (View.removeMediator st mn).1 = true
    ∧ View.invB (View.notifyObservers st n).1 = true :=
  ⟨rfl, View.invB_registerObserver st nm o h, View.invB_removeObserver st nm c h,
   View.invB_registerMediator st m h, View.invB_removeMediator st mn h,
   View.invB_notifyObservers st n h⟩

/-- Witness for C5 on a view with one observer registered under "a",
exercising all five operations. -/
theorem puremvc_C5_witness :
    View.invB (View.State.mk "core" [] [("a", [⟨0, NotifyMethod.handler []⟩])]) = true
    ∧ (View.invB (newView "k") = true
      ∧ View.invB (View.registerObserver
          (View.State.mk "core" [] [("a", [⟨0, NotifyMethod.handler []⟩])]) "a"
          ⟨1, NotifyMethod.handler [HStep.remObserver "a" 0]⟩) = true
      ∧ View.invB (View.removeObserver
          (View.State.mk "core" [] [("a", [⟨0, NotifyMethod.handler []⟩])]) "a" 0) = true
      ∧ View.invB (View.registerMediator
          (View.State.mk "core" [] [("a", [⟨0, NotifyMethod.handler []⟩])])
          ⟨"M", 3, ["a"], [], none⟩) = true
      ∧ View.invB (View.removeMediator
          (View.State.mk "core" [] [("a", [⟨0, NotifyMethod.handler []⟩])]) "M").1 = true
      ∧ View.invB (View.notifyObservers
          (View.State.mk "core" [] [("a", [⟨0, NotifyMethod.handler []⟩])])
          (Notification.mk "a" none none)).1 = true) :=
  ⟨rfl, puremvc_C5_invariant (View.State.mk "core" [] [("a", [⟨0, NotifyMethod.handler []⟩])])
    rfl "k" "a" ⟨1, NotifyMethod.handler [HStep.remObserver "a" 0]⟩ 0
    ⟨"M", 3, ["a"], [], none⟩ "M" (Notification.mk "a" none none)⟩

/-- C6: registering a mediator under a fresh name subscribes its context
exactly once under each of its (distinct) interests; a second
`registerMediator` under the same name is a strict no-op — the original
mediator stays registered and no duplicate subscription appears. -/
theorem puremvc_C6_reregistration_noop (st0 : View.State) (m m' : MediatorRec)
    (hname : m'.name = m.name)
    (h0 : mapHas st0.mediatorMap m.name = false)
    (hnd : m.interests.Nodup)
    (hctx : ∀ i ∈ m.interests, View.countCtx st0 i m.ctx = 0) :
    View.registerMediator (View.registerMediator st0 m) m' = View.registerMediator st0 m
    ∧ View.retrieveMediator (View.registerMediator st0 m) m.name =
        some ({ m with key := some st0.multitonKey })
    ∧ ∀ i ∈ m.interests, View.countCtx (View.registerMediator st0 m) i m.ctx = 1 := by
  have hmm := View.registerMediator_mediatorMap st0 m h0
  refine ⟨?_, ?_, ?_⟩
  · apply View.registerMediator_noop
    rw [hname, hmm]
    exact mapHas_set_self _ _ _
  · unfold View.retrieveMediator
    rw [hmm]
    exact mapGet_set_self _ _ _
  · intro i hi
    have hlen : 0 < m.interests.length := List.length_pos.mpr (List.ne_nil_of_mem hi)
    have hreg : View.registerMediator st0 m =
        View.regInterests
          ({ st0 with mediatorMap := mapSet st0.mediatorMap m.name ({ m with key := some st0.multitonKey }) })
          m.interests ⟨m.ctx, NotifyMethod.handler m.steps⟩ := by
      unfold View.registerMediator
      rw [if_neg (by simp [h0]), if_pos hlen]
    have h2 := View.countCtx_regInterests_mem m.interests
      ({ st0 with mediatorMap := mapSet st0.mediatorMap m.name ({ m with key := some st0.multitonKey }) })
      ⟨m.ctx, NotifyMethod.handler m.steps⟩ i hnd hi
    rw [hreg]
    simp only [View.countCtx_mediatorMap_update, hctx i hi] at h2
    simpa using h2

/-- Witness for C6: mediator "M" (context 3, interest "GAME_OVER")
registered twice on a fresh view. -/
theorem puremvc_C6_witness :
    ((⟨"M", 4, ["GAME_OVER"], [], none⟩ : MediatorRec).name =
        (⟨"M", 3, ["GAME_OVER"], [HStep.emit 9], none⟩ : MediatorRec).name
      ∧ mapHas (View.State.mk "core" [] []).mediatorMap "M" = false
      ∧ (["GAME_OVER"] : List String).Nodup
      ∧ ∀ i ∈ (["GAME_OVER"] : List String),
          View.countCtx (View.State.mk "core" [] []) i 3 = 0)
    ∧ (View.registerMediator
          (View.registerMediator (View.State.mk "core" [] [])
            ⟨"M", 3, ["GAME_OVER"], [HStep.emit 9], none⟩)
          ⟨"M", 4, ["GAME_OVER"], [], none⟩ =
        View.registerMediator (View.State.mk "core" [] [])
          ⟨"M", 3, ["GAME_OVER"], [HStep.emit 9], none⟩
      ∧ View.retrieveMediator
          (View.registerMediator (View.State.mk "core" [] [])
            ⟨"M", 3, ["GAME_OVER"], [HStep.emit 9], none⟩) "M" =
          some ⟨"M", 3, ["GAME_OVER"], [HStep.emit 9], some "core"⟩
      ∧ ∀ i ∈ (["GAME_OVER"] : List String),
          View.countCtx
            (View.registerMediator (View.State.mk "core" [] [])
              ⟨"M", 3, ["GAME_OVER"], [HStep.emit 9], none⟩) i 3 = 1) :=
  ⟨⟨rfl, rfl, by decide, by intro i hi; fin_cases hi; rfl⟩,
    puremvc_C6_reregistration_noop (View.State.mk "core" [] [])
      ⟨"M", 3, ["GAME_OVER"], [HStep.emit 9], none⟩ ⟨"M", 4, ["GAME_OVER"], [], none⟩
      rfl rfl (by decide) (by intro i hi; fin_cases hi; rfl)⟩

/-- C7: registering commands `c1` then `c2` for a name not previously
mapped leaves exactly ONE observer subscription with the Controller as
context at the view for that name, the command map holds the latest
constructor `c2`, and `executeCommand` on a notification of that name
instantiates and executes `c2`. -/
theorem puremvc_C7_command_replacement (cs : Controller.State) (nm : String)
    (c1 c2 : CommandCls)
    (hmap : mapHas cs.commandMap nm = false)
    (hcnt : View.countCtx cs.view nm cs.ctx = 0) :
    View.countCtx
        (Controller.registerCommand (Controller.registerCommand cs nm c1) nm c2).view
        nm cs.ctx = 1
    ∧ mapGet
        (Controller.registerCommand (Controller.registerCommand cs nm c1) nm c2).commandMap
        nm = some c2
    ∧ ∀ n : Notification, n.getName = nm →
        Controller.executeCommand
          (Controller.registerCommand (Controller.registerCommand cs nm c1) nm c2) n =
          c2.exec n := by
  have e1 : Controller.registerCommand cs nm c1 =
      { cs with view := View.registerObserver cs.view nm ⟨cs.ctx, NotifyMethod.dispatch⟩, commandMap := mapSet cs.commandMap nm c1 } := by
    simp [Controller.registerCommand, hmap]
  have e2 : Controller.registerCommand
      ({ cs with view := View.registerObserver cs.view nm ⟨cs.ctx, NotifyMethod.dispatch⟩, commandMap := mapSet cs.commandMap nm c1 }) nm c2 =
      { cs with view := View.registerObserver cs.view nm ⟨cs.ctx, NotifyMethod.dispatch⟩, commandMap := mapSet (mapSet cs.commandMap nm c1) nm c2 } := by
    simp [Controller.registerCommand, mapHas_set_self]
  refine ⟨?_, ?_, ?_⟩
  · have h2 := View.countCtx_registerObserver_self cs.view nm ⟨cs.ctx, NotifyMethod.dispatch⟩
    rw [e1, e2]
    simp only [hcnt] at h2
    simpa using h2
  · rw [e1, e2]
    simp
  · intro n hn
    have hn' : n.name = nm := hn
    rw [e1, e2]
    simp [Controller.executeCommand, Notification.getName, hn']

/-- Witness for C7: two leaf commands registered for "N" on a fresh
controller (context 7). -/
theorem puremvc_C7_witness :
    (mapHas (Controller.State.mk 7 "core" [] (View.State.mk "core" [] [])).commandMap
        "N" = false
      ∧ View.countCtx (Controller.State.mk 7 "core" [] (View.State.mk "core" [] [])).view
          "N" 7 = 0)
    ∧ (View.countCtx
          (Controller.registerCommand
            (Controller.registerCommand
              (Controller.State.mk 7 "core" [] (View.State.mk "core" [] []))
              "N" (CommandCls.leaf ⟨0, []⟩))
            "N" (CommandCls.leaf ⟨1, [CStep.emit 4]⟩)).view "N" 7 = 1
      ∧ mapGet
          (Controller.registerCommand
            (Controller.registerCommand
              (Controller.State.mk 7 "core" [] (View.State.mk "core" [] []))
              "N" (CommandCls.leaf ⟨0, []⟩))
            "N" (CommandCls.leaf ⟨1, [CStep.emit 4]⟩)).commandMap "N" =
          some (CommandCls.leaf ⟨1, [CStep.emit 4]⟩)
      ∧ ∀ n : Notification, n.getName = "N" →
          Controller.executeCommand
            (Controller.registerCommand
              (Controller.registerCommand
                (Controller.State.mk 7 "core" [] (View.State.mk "core" [] []))
                "N" (CommandCls.leaf ⟨0, []⟩))
              "N" (CommandCls.leaf ⟨1, [CStep.emit 4]⟩)) n =
            (CommandCls.leaf ⟨1, [CStep.emit 4]⟩).exec n) :=
  ⟨⟨rfl, rfl⟩,
    puremvc_C7_command_replacement
      (Controller.State.mk 7 "core" [] (View.State.mk "core" [] []))
      "N" (CommandCls.leaf ⟨0, []⟩) (CommandCls.leaf ⟨1, [CStep.emit 4]⟩) rfl rfl⟩

/-- C8: a sequential `MacroCommand` over `[A, B]` whose first sub-command
`A` fails propagates `A`'s failure out of `execute` immediately: the
composite's trace is exactly `A`'s trace — `B` is never instantiated or
executed. -/
theorem puremvc_C8_fail_fast (A B : SubCmd) (n : Notification) (e : Nat)
    (hA : (execSub n A).2 = some e) :
    MacroCommand.execute ⟨true, [A, B]⟩ n = ((execSub n A).1, some e) := by
  rcases hEq : execSub n A with ⟨evs, r⟩
  rw [hEq] at hA
  simp only at hA
  subst hA
  simp [MacroCommand.execute, seqRun, hEq]

/-- Witness for C8: `A` rejects with 7, `B` would emit 3; the composite
fails with 7 and `B`'s event never appears. -/
theorem puremvc_C8_witness :
    (execSub ⟨"M", none, none⟩ ⟨0, [CStep.emit 1, CStep.throwErr 7]⟩).2 = some 7
    ∧ MacroCommand.execute
        ⟨true, [⟨0, [CStep.emit 1, CStep.throwErr 7]⟩, ⟨1, [CStep.emit 3]⟩]⟩
        ⟨"M", none, none⟩ =
      ((execSub ⟨"M", none, none⟩ ⟨0, [CStep.emit 1, CStep.throwErr 7]⟩).1, some 7) :=
  ⟨rfl, puremvc_C8_fail_fast ⟨0, [CStep.emit 1, CStep.throwErr 7]⟩ ⟨1, [CStep.emit 3]⟩
    ⟨"M", none, none⟩ 7 rfl⟩

/-- C9: `registerProxy` over an already-taken name replaces the map slot
with the new (key-bound) proxy, fires `onRegister` on the new proxy
only — no `onRemove` (or any hook) reaches the displaced proxy — and
leaves every other slot and the model's key untouched. -/
theorem puremvc_C9_overwrite_no_hook (ms : Model.State) (old p : ProxyRec)
    (_h : mapGet ms.proxyMap p.name = some old) :
    (Model.registerProxy ms p).2 = [MEvent.onRegister p.id]
    ∧ MEvent.onRemove old.id ∉ (Model.registerProxy ms p).2
    ∧ mapGet (Model.registerProxy ms p).1.proxyMap p.name =
        some ({ p with key := some ms.multitonKey })
    ∧ (∀ other, other ≠ p.name →
        mapGet (Model.registerProxy ms p).1.proxyMap other = mapGet ms.proxyMap other)
    ∧ (Model.registerProxy ms p).1.multitonKey = ms.multitonKey := by
  refine ⟨rfl, ?_, ?_, ?_, rfl⟩
  · simp [Model.registerProxy]
  · simp [Model.registerProxy]
  · intro other hne
    simp [Model.registerProxy, mapGet_set_ne _ _ _ _ hne]

/-- Witness for C9: proxy "score" (id 10) displaced by a new "score"
proxy (id 11). -/
theorem puremvc_C9_witness :
    mapGet [("score", (⟨"score", 10, none, none⟩ : ProxyRec))]
        (ProxyRec.name ⟨"score", 11, some "0", none⟩) = some ⟨"score", 10, none, none⟩
    ∧ ((Model.registerProxy (Model.State.mk "core" [("score", ⟨"score", 10, none, none⟩)])
          ⟨"score", 11, some "0", none⟩).2 = [MEvent.onRegister 11]
      ∧ MEvent.onRemove 10 ∉
          (Model.registerProxy (Model.State.mk "core" [("score", ⟨"score", 10, none, none⟩)])
            ⟨"score", 11, some "0", none⟩).2
      ∧ mapGet (Model.registerProxy
            (Model.State.mk "core" [("score", ⟨"score", 10, none, none⟩)])
            ⟨"score", 11, some "0", none⟩).1.proxyMap
          (ProxyRec.name ⟨"score", 11, some "0", none⟩) =
          some ⟨"score", 11, some "0", some "core"⟩
      ∧ (∀ other, other ≠ (ProxyRec.name ⟨"score", 11, some "0", none⟩) →
          mapGet (Model.registerProxy
              (Model.State.mk "core" [("score", ⟨"score", 10, none, none⟩)])
              ⟨"score", 11, some "0", none⟩).1.proxyMap other =
            mapGet (Model.State.mk "core"
              [("score", ⟨"score", 10, none, none⟩)]).proxyMap other)
      ∧ (Model.registerProxy (Model.State.mk "core" [("score", ⟨"score", 10, none, none⟩)])
          ⟨"score", 11, some "0", none⟩).1.multitonKey = "core") :=
  ⟨rfl, puremvc_C9_overwrite_no_hook
    (Model.State.mk "core" [("score", ⟨"score", 10, none, none⟩)])
    ⟨"score", 10, none, none⟩ ⟨"score", 11, some "0", none⟩ rfl⟩

theorem modelGetInstanceG_facades (g : GlobalState) (k : String) :
    (modelGetInstanceG g k).facades = g.facades := by
  unfold modelGetInstanceG
  split <;> rfl

theorem viewGetInstanceG_facades (g : GlobalState) (k : String) :
    (viewGetInstanceG g k).facades = g.facades := by
  unfold viewGetInstanceG
  split <;> rfl

theorem controllerGetInstanceG_facades (g : GlobalState) (k : String) :
    (controllerGetInstanceG g k).facades = g.facades := by
  unfold controllerGetInstanceG
  split
  · exact viewGetInstanceG_facades g k
  · rfl

theorem facadeRemoveCore_noop (g : GlobalState) (k : String)
    (h : mapHas g.facades k = false) : facadeRemoveCore g k = g := by
  unfold facadeRemoveCore
  simp [h]

theorem mapHas_modelGetInstanceG_self (g : GlobalState) (k : String) :
    mapHas (modelGetInstanceG g k).models k = true := by
  unfold modelGetInstanceG
  by_cases hm : mapHas g.models k = true
  · simp [hm]
  · simp only [Bool.not_eq_true] at hm
    simp [hm]

/-- C10: `Facade.removeCore` on a key with no `Facade` instance returns
immediately and changes nothing — in particular, `Model`, `View` or
`Controller` instances created for that key directly through their own
static `getInstance` (which never touches the `Facade` map) survive the
call and stay in their static instance maps. -/
theorem puremvc_C10_removeCore_unknown_key (g : GlobalState) (k : String)
    (h : mapHas g.facades k = false) :
    facadeRemoveCore g k = g
    ∧ facadeRemoveCore (modelGetInstanceG g k) k = modelGetInstanceG g k
    ∧ mapHas (facadeRemoveCore (modelGetInstanceG g k) k).models k = true
    ∧ facadeRemoveCore (viewGetInstanceG g k) k = viewGetInstanceG g k
    ∧ facadeRemoveCore (controllerGetInstanceG g k) k = controllerGetInstanceG g k := by
  have hM : mapHas (modelGetInstanceG g k).facades k = false := by
    rw [modelGetInstanceG_facades]; exact h
  have hV : mapHas (viewGetInstanceG g k).facades k = false := by
    rw [viewGetInstanceG_facades]; exact h
  have hC : mapHas (controllerGetInstanceG g k).facades k = false := by
    rw [controllerGetInstanceG_facades]; exact h
  refine ⟨facadeRemoveCore_noop g k h, facadeRemoveCore_noop _ _ hM, ?_,
    facadeRemoveCore_noop _ _ hV, facadeRemoveCore_noop _ _ hC⟩
  rw [facadeRemoveCore_noop _ _ hM]
  exact mapHas_modelGetInstanceG_self g k

/-- Witness for C10 on the empty global state with key "core". -/
theorem puremvc_C10_witness :
    mapHas (GlobalState.mk [] [] [] []).facades "core" = false
    ∧ (facadeRemoveCore (GlobalState.mk [] [] [] []) "core" = GlobalState.mk [] [] [] []
      ∧ facadeRemoveCore (modelGetInstanceG (GlobalState.mk [] [] [] []) "core") "core" =
          modelGetInstanceG (GlobalState.mk [] [] [] []) "core"
      ∧ mapHas (facadeRemoveCore (modelGetInstanceG (GlobalState.mk [] [] [] []) "core")
          "core").models "core" = true
      ∧ facadeRemoveCore (viewGetInstanceG (GlobalState.mk [] [] [] []) "core") "core" =
          viewGetInstanceG (GlobalState.mk [] [] [] []) "core"
      ∧ facadeRemoveCore (controllerGetInstanceG (GlobalState.mk [] [] [] []) "core")
          "core" = controllerGetInstanceG (GlobalState.mk [] [] [] []) "core") :=
  ⟨rfl, puremvc_C10_removeCore_unknown_key (GlobalState.mk [] [] [] []) "core" rfl⟩
